import Mathlib

/-!
Verification of the heuristic resume-analysis and ATS-scoring engine
(`Resume_Annalyzer/analyzer.py`).

Modelling conventions:
* Python strings are modelled as `List Char` (the texts involved are ASCII);
  `String.toList` converts at the boundary, and `str.lower` is `Char.toLower`.
* Each Python `re` pattern is embedded as a hand-written matcher over
  `List Char`; every matcher's doc comment quotes the exact pattern it
  implements and justifies its greedy/backtracking behaviour.  Regex semantics
  follow Python >= 3.11 (the interpreter the repository runs on; in
  particular, inside a pattern the unescaped skill name `C++` parses as a
  possessive repetition of `C`, it is not the compile error it was before
  3.11).
* Python floats are modelled by exact rationals `ℚ`; all values involved are
  small decimal fractions, far from any double-rounding boundary.
* Python `int(x)` (truncation toward zero) is `pyInt`.
-/

namespace ResumeAnalyzer

/-- Python regex class `\s` (its ASCII part): space, tab, newline, carriage
return, vertical tab, form feed. -/
def pyIsSpace (c : Char) : Bool :=
  c == ' ' || c == '\t' || c == '\n' || c == '\r' || c == '\x0b' || c == '\x0c'

/-- Python regex class `\w` (its ASCII part): letters, digits, underscore. -/
def isWordChar (c : Char) : Bool := c.isAlphanum || c == '_'

/-- Word-character test on an optional character; outside the string counts as
non-word. -/
def isWordO : Option Char → Bool
  | none => false
  | some c => isWordChar c

/-- Python `\b`: a word boundary holds between two adjacent (optional)
characters iff exactly one of the two sides is a word character. -/
def isBoundary (a b : Option Char) : Bool := isWordO a != isWordO b

/-- Implements `re.sub(r"\s+", " ", text)`: every maximal whitespace run becomes a single
space.  Pairwise formulation: inside a run all characters but the last are
dropped and the last becomes a space. -/
def collapseWS : List Char → List Char
  | [] => []
  | [c] => [if pyIsSpace c then ' ' else c]
  | c :: d :: cs =>
    if pyIsSpace c && pyIsSpace d then collapseWS (d :: cs)
    else (if pyIsSpace c then ' ' else c) :: collapseWS (d :: cs)

/-- Python `str.strip()`: drop leading and trailing whitespace. -/
def pyStrip (l : List Char) : List Char :=
  ((l.dropWhile pyIsSpace).reverse.dropWhile pyIsSpace).reverse

/-- Source `_normalize_text`: `re.sub(r"\s+", " ", text or "").strip()`. -/
def normalize_text (l : List Char) : List Char := pyStrip (collapseWS l)

/-- Helper for `len(s.split())`: `str.split()` with no argument splits on
whitespace runs and drops empty pieces, so its length is the number of maximal
non-whitespace runs.  The flag records whether the previous character belonged
to a token. -/
def countTokensGo : Bool → List Char → Nat
  | _, [] => 0
  | inTok, c :: cs =>
    if pyIsSpace c then countTokensGo false cs
    else (if inTok then 0 else 1) + countTokensGo true cs

/-- Implements `len(s.split())`: the number of whitespace-delimited tokens of `s`. -/
def pyWordCount (l : List Char) : Nat := countTokensGo false l

/-- Source `PREDEFINED_SKILLS`, in source order. -/
def PREDEFINED_SKILLS : List String :=
  ["Python", "Java", "JavaScript", "SQL", "C++", "Project Management",
   "Data Analysis", "Machine Learning", "Deep Learning", "NLP",
   "Communication", "Leadership", "AWS", "Azure", "GCP", "Docker", "Kubernetes"]

/-- The vocabulary in the order produced by Python's `sorted` (lexicographic on
code points); `skillsSorted_sorted` and `skillsSorted_perm` below check that
this is indeed the sorted permutation of `PREDEFINED_SKILLS`. -/
def skillsSorted : List String :=
  ["AWS", "Azure", "C++", "Communication", "Data Analysis", "Deep Learning",
   "Docker", "GCP", "Java", "JavaScript", "Kubernetes", "Leadership",
   "Machine Learning", "NLP", "Project Management", "Python", "SQL"]

/-- Case-insensitive match of a literal against a prefix of the text, returning
the remaining suffix.  Implements a regex literal under the `(?i)` flag. -/
def ciMatch : List Char → List Char → Option (List Char)
  | [], t => some t
  | _ :: _, [] => none
  | n :: ns, c :: cs => if n.toLower == c.toLower then ciMatch ns cs else none

/-- One attempt of the pattern `(?i)\b<lit>\b` at the current position (`prev`
is the character just before it).  Every vocabulary literal starts and ends
with a letter, and a case-insensitive ASCII match preserves the word-character
class, so the trailing `\b` can be evaluated against the literal's own last
character. -/
def wordHitAt (needle : List Char) (prev : Option Char) (text : List Char) : Bool :=
  isBoundary prev text.head? &&
    match ciMatch needle text with
    | none => false
    | some rest => isBoundary needle.getLast? rest.head?

/-- Implements `re.search` of `(?i)\b<lit>\b`: try every start position, left to right. -/
def wordSearch (needle : List Char) : Option Char → List Char → Bool
  | prev, [] => wordHitAt needle prev []
  | prev, c :: cs => wordHitAt needle prev (c :: cs) || wordSearch needle (some c) cs

/-- Implements `re.search` of the pattern built from the vocabulary entry `"C++"`: the
code interpolates the name unescaped, so `rf"(?i)\b{s}\b"` is `(?i)\bC++\b`,
where `C+` is one-or-more `C` and the second `+` makes the repetition
possessive (Python >= 3.11).  At a candidate position the run of `c`/`C`
characters is consumed maximally with no backtracking, then the trailing `\b`
must hold: the pattern matches exactly a standalone maximal run of `c`s with
word boundaries on both sides.  (Greedy and possessive coincide here: cutting
the run short would place the trailing `\b` before another `c`, which is a
word character.) -/
def cxxSearch : Option Char → List Char → Bool
  | _, [] => false
  | prev, c :: cs =>
    (c.toLower == 'c' && !isWordO prev &&
      !isWordO ((cs.dropWhile (fun d => d.toLower == 'c')).head?)) ||
    cxxSearch (some c) cs

/-- Implements `re.search(rf"(?i)\b{s}\b", text)` for one vocabulary entry.  Every entry
except `"C++"` consists of letters and spaces only, hence is a regex literal;
`"C++"` is the single entry whose unescaped metacharacters change the
pattern's meaning. -/
def skillHit (s : String) (text : List Char) : Bool :=
  if s == "C++" then cxxSearch none text else wordSearch s.toList none text

/-- Source `_find_skills`: `sorted({s for s in PREDEFINED_SKILLS if re.search(...)})`.
Filtering the sorted vocabulary yields the same sorted duplicate-free list as
sorting the set comprehension. -/
def find_skills (text : List Char) : List String :=
  skillsSorted.filter (fun s => skillHit s text)

/-- Decimal value of a digit character. -/
def digitVal (c : Char) : Nat := c.toNat - '0'.toNat

/-- Implements `\d{k}`: exactly `k` leading digit characters; returns their decimal value
and the remaining suffix.  The alternatives `k = 2` then `k = 1` realise the
greedy-with-backtracking behaviour of `\d{1,2}`. -/
def takeDigits (k : Nat) (cs : List Char) : Option (Nat × List Char) :=
  let pre := cs.take k
  if pre.length == k && pre.all Char.isDigit then
    some (pre.foldl (fun a c => 10 * a + digitVal c) 0, cs.drop k)
  else none

/-- One alternative `<w>` of an alternation that is followed by `\b`: the
literal (case-insensitively), then the boundary.  Every alternative used with
this helper ends in a letter, so the trailing `\b` requires the next character
to be non-word or the end of the string. -/
def litThenB (w : String) (cs : List Char) : Option Nat :=
  match ciMatch w.toList cs with
  | none => none
  | some rest => if isWordO rest.head? then none else some w.length

/-- The group-plus-boundary `(years?|yrs?|yoe)\b` of experience pattern a:
alternatives are tried left to right, and the greedy `s?` puts the longer form
first, giving the preference order below. -/
def unitAlt (cs : List Char) : Option Nat :=
  litThenB "years" cs <|> litThenB "year" cs <|> litThenB "yrs" cs <|>
    litThenB "yr" cs <|> litThenB "yoe" cs

/-- The part `\s*\+?\s*(years?|yrs?|yoe)\b` of experience pattern a, after the
digit group.  Each `\s*` can be taken maximally (none of the following atoms
matches whitespace), and declining an available `+` cannot help either (`\s*`
and the unit alternatives do not match `+`), so the greedy parse is the only
possible one.  Returns the consumed length. -/
def p1Rest (cs : List Char) : Option Nat :=
  let s1 := (cs.takeWhile pyIsSpace).length
  let cs1 := cs.drop s1
  let ps := match cs1.head? with
    | some '+' => 1
    | _ => 0
  let cs2 := cs1.drop ps
  let s2 := (cs2.takeWhile pyIsSpace).length
  let cs3 := cs2.drop s2
  match unitAlt cs3 with
  | none => none
  | some u => some (s1 + ps + s2 + u)

/-- One attempt of experience pattern a
`(?i)\b(\d{1,2})\s*\+?\s*(years?|yrs?|yoe)\b` at the current position.  The
first pattern atom after `\b` is `\d`, a word character, so the leading
boundary amounts to the previous character being non-word; then `\d{1,2}`
greedily (two digits, backtracking to one), then `p1Rest`.  Of the match's two
groups only the digit group is numeric (`g.isdigit()`), so the per-match
candidate `max(nums)` is that group's value.  Returns (candidate, length). -/
def tryP1 (prev : Option Char) (cs : List Char) : Option (Nat × Nat) :=
  if isWordO prev then none
  else
    (match takeDigits 2 cs with
     | some (v, rest) =>
       match p1Rest rest with
       | some n => some (v, 2 + n)
       | none => none
     | none => none) <|>
    (match takeDigits 1 cs with
     | some (v, rest) =>
       match p1Rest rest with
       | some n => some (v, 1 + n)
       | none => none
     | none => none)

/-- Implements `re.finditer` for experience pattern a: try each position left to right;
after a match, resume right after its end (every match is non-empty, so the
scan advances).  The fuel argument, initially the text length, makes the
recursion structural; each step consumes one fuel and at least one character,
so the fuel never runs out. -/
def scanP1Go : Nat → Option Char → List Char → List Nat
  | 0, _, _ => []
  | _ + 1, _, [] => []
  | fuel + 1, prev, c :: cs =>
    match tryP1 prev (c :: cs) with
    | none => scanP1Go fuel (some c) cs
    | some (v, n) =>
      let m := max n 1
      v :: scanP1Go fuel ((c :: cs)[m - 1]?) (cs.drop (m - 1))

/-- The tail `\s*years` shared by experience patterns b and c. -/
def p2Tail (cs : List Char) : Option Nat :=
  let s := (cs.takeWhile pyIsSpace).length
  match ciMatch "years".toList (cs.drop s) with
  | none => none
  | some _ => some (s + 5)

/-- The part `\s*to\s*(\d{1,2})\s*years` of experience pattern b, after the
first digit group; returns (second group's value, consumed length).  Each
`\s*` is safely maximal; the second digit group backtracks from two digits to
one. -/
def p2AfterD1 (cs : List Char) : Option (Nat × Nat) :=
  let s1 := (cs.takeWhile pyIsSpace).length
  match ciMatch "to".toList (cs.drop s1) with
  | none => none
  | some r1 =>
    let s2 := (r1.takeWhile pyIsSpace).length
    let r2 := r1.drop s2
    (match takeDigits 2 r2 with
     | some (v, rest) =>
       match p2Tail rest with
       | some t => some (v, s1 + 2 + s2 + 2 + t)
       | none => none
     | none => none) <|>
    (match takeDigits 1 r2 with
     | some (v, rest) =>
       match p2Tail rest with
       | some t => some (v, s1 + 2 + s2 + 1 + t)
       | none => none
     | none => none)

/-- One attempt of experience pattern b `(?i)(\d{1,2})\s*to\s*(\d{1,2})\s*years`
(no word boundaries in this pattern).  Both groups are numeric, so the
per-match candidate `max(nums)` is the maximum of the two groups.  The first
digit group backtracks from two digits to one over the whole continuation.
Returns (candidate, length). -/
def tryP2 (cs : List Char) : Option (Nat × Nat) :=
  (match takeDigits 2 cs with
   | some (v, rest) =>
     match p2AfterD1 rest with
     | some (w, n) => some (max v w, 2 + n)
     | none => none
   | none => none) <|>
  (match takeDigits 1 cs with
   | some (v, rest) =>
     match p2AfterD1 rest with
     | some (w, n) => some (max v w, 1 + n)
     | none => none
   | none => none)

/-- Implements `re.finditer` for experience pattern b (fuel as in `scanP1Go`; the pattern
has no `\b`, so the previous character is irrelevant). -/
def scanP2Go : Nat → List Char → List Nat
  | 0, _ => []
  | _ + 1, [] => []
  | fuel + 1, c :: cs =>
    match tryP2 (c :: cs) with
    | none => scanP2Go fuel cs
    | some (v, n) => v :: scanP2Go fuel (cs.drop (max n 1 - 1))

/-- The tail `(\d{1,2})\s*years` of experience pattern c; returns (digit
group's value, consumed length). -/
def p3Tail (cs : List Char) : Option (Nat × Nat) :=
  (match takeDigits 2 cs with
   | some (v, rest) =>
     match p2Tail rest with
     | some t => some (v, 2 + t)
     | none => none
   | none => none) <|>
  (match takeDigits 1 cs with
   | some (v, rest) =>
     match p2Tail rest with
     | some t => some (v, 1 + t)
     | none => none
   | none => none)

/-- A bounded greedy dot repetition `.{0,n}` followed by a tail matcher: `.`
matches any character except a newline, and greediness means the attempts run
from `n` dots down to `0`, the first success winning. -/
def dotsThen (tail : List Char → Option (Nat × Nat)) : Nat → List Char → Option (Nat × Nat)
  | n, cs =>
    (let pre := cs.take n
     if pre.length == n && pre.all (fun c => c != '\n') then
       match tail (cs.drop n) with
       | some (v, t) => some (v, n + t)
       | none => none
     else none) <|>
    (match n with
     | 0 => none
     | k + 1 => dotsThen tail k cs)

/-- One attempt of experience pattern c `(?i)experience.{0,20}(\d{1,2})\s*years`
(no word boundaries).  Returns (digit group's value, length). -/
def tryP3 (cs : List Char) : Option (Nat × Nat) :=
  match ciMatch "experience".toList cs with
  | none => none
  | some rest =>
    match dotsThen p3Tail 20 rest with
    | some (v, n) => some (v, 10 + n)
    | none => none

/-- Implements `re.finditer` for experience pattern c (fuel as in `scanP1Go`). -/
def scanP3Go : Nat → List Char → List Nat
  | 0, _ => []
  | _ + 1, [] => []
  | fuel + 1, c :: cs =>
    match tryP3 (c :: cs) with
    | none => scanP3Go fuel cs
    | some (v, n) => v :: scanP3Go fuel (cs.drop (max n 1 - 1))

/-- The numeric candidates collected by `_parse_years_of_experience`: one per
match, across the three pattern families, in scan order. -/
def expCandidates (text : List Char) : List Nat :=
  scanP1Go text.length none text ++ scanP2Go text.length text ++
    scanP3Go text.length text

/-- Source `_parse_years_of_experience`: `max(candidates) if candidates else 0.0`.
On a non-empty list of naturals, `foldr max 0` is the maximum. -/
def parse_years_of_experience (text : List Char) : ℚ :=
  match expCandidates text with
  | [] => 0
  | c :: cs => (((c :: cs).foldr max 0 : Nat) : ℚ)

/-- One attempt of achievement pattern 1 `\b\d+\s*%`: the leading `\b` with the
word character `\d` next amounts to the previous character being non-word;
`\d+` is safely maximal (neither `\s` nor `%` matches a digit, so backtracking
it cannot succeed).  Returns the matched length. -/
def tryPct (prev : Option Char) (cs : List Char) : Option Nat :=
  if isWordO prev then none
  else
    let d := (cs.takeWhile Char.isDigit).length
    if d == 0 then none
    else
      let cs1 := cs.drop d
      let s := (cs1.takeWhile pyIsSpace).length
      match (cs1.drop s).head? with
      | some '%' => some (d + s + 1)
      | _ => none

/-- Implements `len(re.findall(...))` for achievement pattern 1 (fuel as in `scanP1Go`). -/
def scanPctGo : Nat → Option Char → List Char → Nat
  | 0, _, _ => 0
  | _ + 1, _, [] => 0
  | fuel + 1, prev, c :: cs =>
    match tryPct prev (c :: cs) with
    | none => scanPctGo fuel (some c) cs
    | some n =>
      let m := max n 1
      1 + scanPctGo fuel ((c :: cs)[m - 1]?) (cs.drop (m - 1))

/-- One attempt of achievement pattern 2 `(?i)\$\s?\d[\d,]*(k|m|b)?`: after the
literal `$`, the optional whitespace is forced when present (declining it
leaves `\d` facing that whitespace); `[\d,]*` is safely maximal and the
optional magnitude suffix is taken when present (each is followed only by
optional or empty parts, so the greedy choices are final).  Returns the
matched length. -/
def tryCur (cs : List Char) : Option Nat :=
  match cs with
  | '$' :: rest =>
    let sp := match rest.head? with
      | some c => if pyIsSpace c then 1 else 0
      | none => 0
    let r1 := rest.drop sp
    match r1.head? with
    | some d =>
      if d.isDigit then
        let k := ((r1.drop 1).takeWhile (fun c => c.isDigit || c == ',')).length
        let r3 := (r1.drop 1).drop k
        let suf := match r3.head? with
          | some c => if c.toLower == 'k' || c.toLower == 'm' || c.toLower == 'b' then 1 else 0
          | none => 0
        some (1 + sp + 1 + k + suf)
      else none
    | none => none
  | _ => none

/-- Implements `len(re.findall(...))` for achievement pattern 2 (no `\b` in the pattern,
so the previous character is irrelevant; fuel as in `scanP1Go`). -/
def scanCurGo : Nat → List Char → Nat
  | 0, _ => 0
  | _ + 1, [] => 0
  | fuel + 1, c :: cs =>
    match tryCur (c :: cs) with
    | none => scanCurGo fuel cs
    | some n => 1 + scanCurGo fuel (cs.drop (max n 1 - 1))

/-- The verb alternation of achievement pattern 3, in source order.  The
alternatives are pairwise distinct words and none is a prefix of another, so
at any position at most one of them matches. -/
def impactVerbs : List String :=
  ["increased", "reduced", "improved", "boosted", "saved", "grew", "decreased"]

/-- The group-plus-boundary `(increased|...|decreased)\b` of achievement
pattern 3: alternatives tried left to right, each with the trailing `\b`. -/
def verbAlt (cs : List Char) : Option Nat :=
  impactVerbs.foldl (fun acc w => acc <|> litThenB w cs) none

/-- The final `\d+` of achievement pattern 3: at least one digit, greedily
maximal (it is the last atom, so the maximal run is the match). -/
def digitsTail (cs : List Char) : Option (Nat × Nat) :=
  let d := (cs.takeWhile Char.isDigit).length
  if d == 0 then none else some (0, d)

/-- One attempt of achievement pattern 3
`(?i)\b(increased|reduced|improved|boosted|saved|grew|decreased)\b.{0,40}\d+`:
leading `\b` (all verbs start with a letter), the verb alternation with its
trailing `\b`, then up to 40 greedy dots and at least one digit.  Returns the
matched length. -/
def tryVerb (prev : Option Char) (cs : List Char) : Option Nat :=
  if isWordO prev then none
  else
    match verbAlt cs with
    | none => none
    | some vl =>
      match dotsThen digitsTail 40 (cs.drop vl) with
      | some (_, n) => some (vl + n)
      | none => none

/-- Implements `len(re.findall(...))` for achievement pattern 3 (fuel as in `scanP1Go`). -/
def scanVerbGo : Nat → Option Char → List Char → Nat
  | 0, _, _ => 0
  | _ + 1, _, [] => 0
  | fuel + 1, prev, c :: cs =>
    match tryVerb prev (c :: cs) with
    | none => scanVerbGo fuel (some c) cs
    | some n =>
      let m := max n 1
      1 + scanVerbGo fuel ((c :: cs)[m - 1]?) (cs.drop (m - 1))

/-- Implements `len(re.findall(r"\b\d+\s*%", text))`. -/
def countPct (text : List Char) : Nat := scanPctGo text.length none text

/-- Implements `len(re.findall(r"\$\s?\d[\d,]*(k|m|b)?", text, flags=re.IGNORECASE))`. -/
def countCur (text : List Char) : Nat := scanCurGo text.length text

/-- Implements `len(re.findall(r"\b(increased|...|decreased)\b.{0,40}\d+", text, ...))`. -/
def countVerb (text : List Char) : Nat := scanVerbGo text.length none text

/-- Source `_detect_quantifiable_achievements`: the sum of the three family counts. -/
def detect_quantifiable_achievements (text : List Char) : Nat :=
  countPct text + countCur text + countVerb text

/-- Substring test (used only to state that a text does not contain a literal
occurrence of a pattern). -/
def hasSubstring (pat : List Char) : List Char → Bool
  | [] => pat.isEmpty
  | c :: cs => pat.isPrefixOf (c :: cs) || hasSubstring pat cs

/-- The analysis record returned by `analyze_resume` (the Python dict with
keys `skills_found`, `experience_level`, `_word_count`, `_quant_achievements`). -/
structure Analysis where
  skills_found : List String
  experience_level : ℚ
  word_count : Nat
  quant_achievements : Nat
deriving DecidableEq

/-- Source `analyze_resume`: normalize once, lowercase for matching, run the three
detectors on the lowercase text and count the words of the normalized text. -/
def analyze_resume (resume_text : String) : Analysis :=
  let normalized := normalize_text resume_text.toList
  let lc := normalized.map Char.toLower
  { skills_found := find_skills lc
    experience_level := parse_years_of_experience lc
    word_count := pyWordCount normalized
    quant_achievements := detect_quantifiable_achievements lc }

/-- Python `int(x)` on a float: truncation toward zero. -/
def pyInt (q : ℚ) : ℤ := if 0 ≤ q then ⌊q⌋ else ⌈q⌉

/-- The length-band component of `generate_ats_score`:
`20` inside the band, else `max(0, 20 - min(20, abs(wc - 550) * 0.05))`. -/
def lengthScore (wc : Nat) : ℚ :=
  if 300 ≤ wc ∧ wc ≤ 800 then 20
  else max 0 (20 - min 20 (|(wc : ℚ) - 550| * (5 / 100)))

/-- The accumulated (unclamped) score of `generate_ats_score`: the four
weighted components in source order. -/
def rawScore (a : Analysis) : ℚ :=
  55 * ((a.skills_found.length : ℚ) / (PREDEFINED_SKILLS.length : ℚ)) +
    (min a.quant_achievements 4 : ℕ) * 5 +
    lengthScore a.word_count +
    (if (1 : ℚ) ≤ a.experience_level then 5 else 0)

/-- Source `generate_ats_score`: `int(max(0, min(100, score)))`. -/
def generate_ats_score (a : Analysis) : ℤ :=
  pyInt (max 0 (min 100 (rawScore a)))

/-- Modelled from the spec (claim C2's wording, for comparison with the code):
the length-band component with `distance` measured from the band edges 300 and
800 rather than from 550. -/
def specLengthBand (wc : Nat) : ℚ :=
  if 300 ≤ wc ∧ wc ≤ 800 then 20
  else
    max 0 (20 - min 20
      ((if wc < 300 then 300 - (wc : ℚ) else (wc : ℚ) - 800) * (5 / 100)))

/-- Modelled from the spec (claim C4's wording, for comparison with the code):
the final score rounded to the nearest integer instead of truncated. -/
def specRoundScore (a : Analysis) : ℤ :=
  round (max 0 (min 100 (rawScore a)))

/-! ## Fidelity checks for the sorted vocabulary -/

/-- Check that `skillsSorted` is a permutation of the source-order vocabulary. -/
lemma skillsSorted_perm : skillsSorted.Perm PREDEFINED_SKILLS := by
  have h : (skillsSorted : Multiset String) = (PREDEFINED_SKILLS : Multiset String) := by
    decide
  exact Multiset.coe_eq_coe.mp h

/-- Check that `skillsSorted` is strictly increasing in the code-point order Python's
`sorted` uses on strings (stated on the character lists). -/
lemma skillsSorted_sorted : skillsSorted.Pairwise (fun a b => a.toList < b.toList) := by
  decide

/-! ## Word-count lemmas: normalization preserves the token count -/

lemma countTokensGo_dropWhile (l : List Char) :
    countTokensGo false (l.dropWhile pyIsSpace) = countTokensGo false l := by
  induction l with
  | nil => rfl
  | cons c cs ih =>
    by_cases h : pyIsSpace c <;> simp [List.dropWhile_cons, h, countTokensGo, ih]

lemma countTokensGo_all_ws (b : Bool) (t : List Char) (ht : ∀ c ∈ t, pyIsSpace c) :
    countTokensGo b t = 0 := by
  induction t generalizing b with
  | nil => rfl
  | cons c cs ih =>
    have hc : pyIsSpace c := ht c (by simp)
    simp only [countTokensGo, hc, if_pos]
    exact ih false (fun d hd => ht d (by simp [hd]))

lemma countTokensGo_append_ws (l t : List Char) (ht : ∀ c ∈ t, pyIsSpace c) :
    ∀ b, countTokensGo b (l ++ t) = countTokensGo b l := by
  induction l with
  | nil => intro b; simpa using countTokensGo_all_ws b t ht
  | cons c cs ih =>
    intro b
    by_cases h : pyIsSpace c <;> simp [countTokensGo, h, ih]

lemma countTokens_pyStrip (l : List Char) :
    countTokensGo false (pyStrip l) = countTokensGo false l := by
  unfold pyStrip
  rw [← countTokensGo_dropWhile l]
  generalize l.dropWhile pyIsSpace = m
  have hdecomp :
      (m.reverse.dropWhile pyIsSpace).reverse ++ (m.reverse.takeWhile pyIsSpace).reverse = m := by
    rw [← List.reverse_append, List.takeWhile_append_dropWhile, List.reverse_reverse]
  conv_rhs => rw [← hdecomp]
  rw [countTokensGo_append_ws]
  intro c hc
  rw [List.mem_reverse] at hc
  exact List.mem_takeWhile_imp hc

lemma countTokensGo_cons_ws {c : Char} (h : pyIsSpace c = true) (b : Bool) (cs : List Char) :
    countTokensGo b (c :: cs) = countTokensGo false cs := by
  simp [countTokensGo, h]

lemma countTokensGo_cons_nonws {c : Char} (h : ¬ pyIsSpace c = true) (b : Bool)
    (cs : List Char) :
    countTokensGo b (c :: cs) = (if b then 0 else 1) + countTokensGo true cs := by
  simp [countTokensGo, h]

lemma countTokens_collapseWS (l : List Char) :
    ∀ b, countTokensGo b (collapseWS l) = countTokensGo b l := by
  induction l with
  | nil => intro b; rfl
  | cons c cs ih =>
    intro b
    cases cs with
    | nil =>
      by_cases h : pyIsSpace c = true
      · have h1 : collapseWS [c] = [' '] := by simp [collapseWS, h]
        rw [h1, countTokensGo_cons_ws (by decide), countTokensGo_cons_ws h]
      · have h1 : collapseWS [c] = [c] := by simp [collapseWS, h]
        rw [h1]
    | cons d ds =>
      by_cases hc : pyIsSpace c = true
      · by_cases hd : pyIsSpace d = true
        · have h1 : collapseWS (c :: d :: ds) = collapseWS (d :: ds) := by
            simp [collapseWS, hc, hd]
          rw [h1, ih b, countTokensGo_cons_ws hd, countTokensGo_cons_ws hc,
            countTokensGo_cons_ws hd]
        · have h1 : collapseWS (c :: d :: ds) = ' ' :: collapseWS (d :: ds) := by
            simp [collapseWS, hc, hd]
          rw [h1, countTokensGo_cons_ws (by decide), ih false, countTokensGo_cons_ws hc]
      · have h1 : collapseWS (c :: d :: ds) = c :: collapseWS (d :: ds) := by
          simp [collapseWS, hc]
        rw [h1, countTokensGo_cons_nonws hc, ih true, countTokensGo_cons_nonws hc]

lemma wordCount_normalize (l : List Char) :
    pyWordCount (normalize_text l) = pyWordCount l := by
  unfold pyWordCount normalize_text
  rw [countTokens_pyStrip, countTokens_collapseWS]

/-! ## Maximum of the candidate list -/

lemma foldr_max_mem_ub (c : Nat) (cs : List Nat) :
    (c :: cs).foldr max 0 ∈ c :: cs ∧ ∀ w ∈ c :: cs, w ≤ (c :: cs).foldr max 0 := by
  induction cs generalizing c with
  | nil => simp
  | cons d ds ih =>
    obtain ⟨hmem, hub⟩ := ih d
    have hfold : (c :: d :: ds).foldr max 0 = max c ((d :: ds).foldr max 0) := rfl
    rcases Nat.le_total c ((d :: ds).foldr max 0) with h | h
    · rw [hfold, max_eq_right h]
      refine ⟨List.mem_cons_of_mem c hmem, ?_⟩
      intro w hw
      rcases List.mem_cons.mp hw with rfl | hw
      · exact h
      · exact hub w hw
    · rw [hfold, max_eq_left h]
      refine ⟨List.mem_cons_self c _, ?_⟩
      intro w hw
      rcases List.mem_cons.mp hw with rfl | hw
      · exact le_rfl
      · exact le_trans (hub w hw) h

lemma parse_years_nonneg (t : List Char) : 0 ≤ parse_years_of_experience t := by
  unfold parse_years_of_experience
  split
  · exact le_rfl
  · exact_mod_cast Nat.zero_le _

/-! ## Scorer lemmas -/

lemma pyInt_of_nonneg {q : ℚ} (h : 0 ≤ q) : pyInt q = ⌊q⌋ := if_pos h

lemma clamp_nonneg (x : ℚ) : 0 ≤ max 0 (min 100 x) := le_max_left 0 _

lemma pyInt_clamp_mono {x y : ℚ} (h : x ≤ y) :
    pyInt (max 0 (min 100 x)) ≤ pyInt (max 0 (min 100 y)) := by
  rw [pyInt_of_nonneg (clamp_nonneg x), pyInt_of_nonneg (clamp_nonneg y)]
  exact Int.floor_mono (max_le_max le_rfl (min_le_min le_rfl h))

lemma ats_score_nonneg (a : Analysis) : 0 ≤ generate_ats_score a := by
  unfold generate_ats_score
  rw [pyInt_of_nonneg (clamp_nonneg _)]
  exact Int.floor_nonneg.mpr (clamp_nonneg _)

lemma ats_score_le_100 (a : Analysis) : generate_ats_score a ≤ 100 := by
  unfold generate_ats_score
  rw [pyInt_of_nonneg (clamp_nonneg _)]
  have h : max 0 (min 100 (rawScore a)) ≤ (100 : ℚ) :=
    max_le (by norm_num) (min_le_left _ _)
  calc ⌊max 0 (min 100 (rawScore a))⌋ ≤ ⌊(100 : ℚ)⌋ := Int.floor_mono h
    _ = 100 := by norm_num

lemma lengthScore_nonneg (wc : Nat) : 0 ≤ lengthScore wc := by
  unfold lengthScore
  split
  · norm_num
  · exact le_max_left _ _

lemma lengthScore_le_20 (wc : Nat) : lengthScore wc ≤ 20 := by
  unfold lengthScore
  split
  · exact le_rfl
  · have hpen : 0 ≤ min 20 (|(wc : ℚ) - 550| * (5 / 100)) := by positivity
    apply max_le <;> linarith

lemma len17 : (PREDEFINED_SKILLS.length : ℚ) = 17 := by norm_num [PREDEFINED_SKILLS]

lemma rawScore_bounds (a : Analysis) (hlen : a.skills_found.length ≤ 17) :
    0 ≤ rawScore a ∧ rawScore a ≤ 100 := by
  unfold rawScore
  rw [len17]
  have hq : ((min a.quant_achievements 4 : ℕ) : ℚ) ≤ 4 := by
    exact_mod_cast min_le_right a.quant_achievements 4
  have hq0 : (0 : ℚ) ≤ ((min a.quant_achievements 4 : ℕ) : ℚ) := by positivity
  have hsk : (a.skills_found.length : ℚ) / 17 ≤ 1 := by
    rw [div_le_one (by norm_num)]
    exact_mod_cast hlen
  have hsk0 : (0 : ℚ) ≤ (a.skills_found.length : ℚ) / 17 := by positivity
  have hls0 := lengthScore_nonneg a.word_count
  have hls20 := lengthScore_le_20 a.word_count
  have hb : (0 : ℚ) ≤ (if (1 : ℚ) ≤ a.experience_level then 5 else 0) ∧
      (if (1 : ℚ) ≤ a.experience_level then 5 else 0) ≤ (5 : ℚ) := by
    split <;> norm_num
  constructor
  · nlinarith [hb.1]
  · nlinarith [hb.2]

lemma skills_length_le {l : List String} (hnd : l.Nodup) (hsub : l ⊆ PREDEFINED_SKILLS) :
    l.length ≤ 17 := by
  have h := (hnd.subperm hsub).length_le
  have h17 : PREDEFINED_SKILLS.length = 17 := rfl
  omega

lemma find_skills_subset (t : List Char) : find_skills t ⊆ PREDEFINED_SKILLS := by
  intro s hs
  unfold find_skills at hs
  have h1 : s ∈ skillsSorted := List.filter_subset' skillsSorted hs
  have h2 : ∀ x ∈ skillsSorted, x ∈ PREDEFINED_SKILLS := by decide
  exact h2 s h1

/-! ## The claims -/

/-- Claim C1: `analyze_resume` is total over all input strings — for every
`text` it returns an analysis record whose `word_count` is the
whitespace-token count of the raw input, whose detected skills are a subset of
the vocabulary and whose experience value is non-negative; and on inputs where
nothing matches (the empty string, pure punctuation) the record is exactly the
empty-skills, zero-experience, word-count-only record. -/
theorem claim_C1_analyze_total :
    (∀ text : String,
        (analyze_resume text).word_count = pyWordCount text.toList ∧
        (analyze_resume text).skills_found ⊆ PREDEFINED_SKILLS ∧
        0 ≤ (analyze_resume text).experience_level) ∧
    analyze_resume "" = ⟨[], 0, 0, 0⟩ ∧
    analyze_resume "@# $% ^&" = ⟨[], 0, 3, 0⟩ := by
  refine ⟨fun text => ⟨?_, ?_, ?_⟩, by decide, by decide⟩
  · exact wordCount_normalize text.toList
  · exact find_skills_subset _
  · exact parse_years_nonneg _

/-- Claim C2 counterexample: at `word_count = 0` the code's length-band
component (distance measured from 550, penalty capped at 20) awards 0 points,
while the claim's band-edge formula (distance 300, penalty 15) awards 5. -/
theorem claim_C2_counterexample : lengthScore 0 ≠ specLengthBand 0 := by
  have h1 : lengthScore 0 = 0 := by
    unfold lengthScore
    rw [if_neg (by omega)]
    have habs : |((0 : Nat) : ℚ) - 550| = 550 := by
      rw [Nat.cast_zero, zero_sub, abs_neg, abs_of_nonneg (by norm_num : (0 : ℚ) ≤ 550)]
    rw [habs]
    rw [min_eq_left (by norm_num), max_eq_left (by norm_num)]
  have h2 : specLengthBand 0 = 5 := by
    unfold specLengthBand
    rw [if_neg (by omega)]
    rw [if_pos (by omega), Nat.cast_zero]
    rw [min_eq_right (by norm_num), max_eq_right (by norm_num)]
    norm_num
  rw [h1, h2]
  norm_num

/-- Claim C2 amended: inside the band the component awards the full 20
points; outside, the distance is measured from 550 (the band midpoint), not
from the nearer band edge, and the component awards
`max(0, 20 − min(20, |wc − 550| · 0.05))` (stated with the absolute value
resolved on each side of the band). -/
theorem claim_C2_length_band_amended (wc : Nat) :
    (300 ≤ wc ∧ wc ≤ 800 → lengthScore wc = 20) ∧
    (wc < 300 → lengthScore wc = max 0 (20 - min 20 ((550 - (wc : ℚ)) * (5 / 100)))) ∧
    (800 < wc → lengthScore wc = max 0 (20 - min 20 (((wc : ℚ) - 550) * (5 / 100)))) := by
  refine ⟨fun h => ?_, fun h => ?_, fun h => ?_⟩
  · unfold lengthScore
    rw [if_pos h]
  · have hb : ¬ (300 ≤ wc ∧ wc ≤ 800) := by omega
    have hlt : (wc : ℚ) < 300 := by exact_mod_cast h
    have habs : |(wc : ℚ) - 550| = 550 - (wc : ℚ) := by
      rw [abs_of_neg (by linarith)]
      ring
    unfold lengthScore
    rw [if_neg hb, habs]
  · have hb : ¬ (300 ≤ wc ∧ wc ≤ 800) := by omega
    have hgt : (800 : ℚ) < (wc : ℚ) := by exact_mod_cast h
    have habs : |(wc : ℚ) - 550| = (wc : ℚ) - 550 := abs_of_nonneg (by linarith)
    unfold lengthScore
    rw [if_neg hb, habs]

/-- Claim C2 amended, witnessed at a word count in each of the three regimes. -/
theorem claim_C2_witness :
    lengthScore 400 = 20 ∧
    lengthScore 100 = max 0 (20 - min 20 ((550 - ((100 : Nat) : ℚ)) * (5 / 100))) ∧
    lengthScore 900 = max 0 (20 - min 20 ((((900 : Nat) : ℚ) - 550) * (5 / 100))) :=
  ⟨(claim_C2_length_band_amended 400).1 (by omega),
   (claim_C2_length_band_amended 100).2.1 (by omega),
   (claim_C2_length_band_amended 900).2.2 (by omega)⟩

/-- Claim C3 (code bug): the code does not escape skill names.  The claim's
positive example does hold — text containing "Skilled in C++" reports "C++" —
but not by literal matching: the unescaped pattern `(?i)\bC++\b` matches any
standalone run of `c`s, so "the c language", whose lowercased normalized text
nowhere contains the substring "c++", also reports "C++". -/
theorem claim_C3_unescaped_cxx_eval :
    "C++" ∈ (analyze_resume "Skilled in C++").skills_found ∧
    "C++" ∈ (analyze_resume "the c language").skills_found ∧
    hasSubstring "c++".toList
      ((normalize_text "the c language".toList).map Char.toLower) = false := by
  decide

/-- Claim C4 counterexample: for a record with three skills, 300 words and no
other signals, the clamped weighted sum is 165/17 + 20 = 505/17 ≈ 29.7; the
code truncates to 29, whereas the claim's rounding would give 30. -/
theorem claim_C4_counterexample :
    generate_ats_score ⟨["AWS", "Azure", "GCP"], 0, 300, 0⟩ ≠
      specRoundScore ⟨["AWS", "Azure", "GCP"], 0, 300, 0⟩ := by
  have hraw : rawScore ⟨["AWS", "Azure", "GCP"], 0, 300, 0⟩ = 505 / 17 := by
    have hls : lengthScore 300 = 20 := by
      unfold lengthScore
      rw [if_pos (by omega)]
    unfold rawScore
    rw [len17]
    show 55 * (((3 : Nat) : ℚ) / 17) + ((min 0 4 : ℕ) : ℚ) * 5 + lengthScore 300 +
      (if (1 : ℚ) ≤ (0 : ℚ) then 5 else 0) = 505 / 17
    rw [hls, if_neg (by norm_num)]
    norm_num
  have hclamp : max 0 (min 100 ((505 : ℚ) / 17)) = 505 / 17 := by
    rw [min_eq_right (by norm_num), max_eq_right (by norm_num)]
  have h1 : generate_ats_score ⟨["AWS", "Azure", "GCP"], 0, 300, 0⟩ = 29 := by
    unfold generate_ats_score
    rw [hraw, hclamp, pyInt_of_nonneg (by norm_num)]
    rw [Int.floor_eq_iff]
    constructor <;> norm_num
  have h2 : specRoundScore ⟨["AWS", "Azure", "GCP"], 0, 300, 0⟩ = 30 := by
    unfold specRoundScore
    rw [hraw, hclamp, round_eq, Int.floor_eq_iff]
    constructor <;> norm_num
  rw [h1, h2]
  norm_num

/-- Claim C4 amended: the scorer returns the clamped weighted sum truncated
toward zero — equivalently its floor, since the clamped sum is non-negative —
not rounded to the nearest integer. -/
theorem claim_C4_truncation_amended (a : Analysis) :
    generate_ats_score a =
      ⌊max 0 (min 100 (55 * (a.skills_found.length : ℚ) / 17 +
        5 * ((min a.quant_achievements 4 : ℕ) : ℚ) + lengthScore a.word_count +
        (if (1 : ℚ) ≤ a.experience_level then 5 else 0)))⌋ := by
  have hraw : rawScore a = 55 * (a.skills_found.length : ℚ) / 17 +
      5 * ((min a.quant_achievements 4 : ℕ) : ℚ) + lengthScore a.word_count +
      (if (1 : ℚ) ≤ a.experience_level then 5 else 0) := by
    unfold rawScore
    rw [len17]
    ring
  unfold generate_ats_score
  rw [hraw, pyInt_of_nonneg (clamp_nonneg _)]

/-- Claim C5: for every input string, the composed pipeline score
`generate_ats_score (analyze_resume text)` is an integer in [0, 100]. -/
theorem claim_C5_score_in_range (text : String) :
    0 ≤ generate_ats_score (analyze_resume text) ∧
      generate_ats_score (analyze_resume text) ≤ 100 :=
  ⟨ats_score_nonneg _, ats_score_le_100 _⟩

/-- Claim C6: the experience extractor returns the maximum numeric candidate
found across its three pattern families and 0 (not a missing value) when no
pattern matches; concretely 5.0 for "5+ years of experience", 7.0 for
"3 to 7 years" (the max of the range), and 0.0 for text with no duration
mention. -/
theorem claim_C6_experience_max :
    parse_years_of_experience ("5+ years of experience".toList) = 5 ∧
    parse_years_of_experience ("3 to 7 years".toList) = 7 ∧
    parse_years_of_experience ("hello world".toList) = 0 ∧
    (∀ t, expCandidates t = [] → parse_years_of_experience t = 0) ∧
    (∀ t v, v ∈ expCandidates t → (v : ℚ) ≤ parse_years_of_experience t) ∧
    (∀ t, expCandidates t ≠ [] →
      ∃ v ∈ expCandidates t, parse_years_of_experience t = (v : ℚ)) := by
  refine ⟨by decide, by decide, by decide, ?_, ?_, ?_⟩
  · intro t h
    simp [parse_years_of_experience, h]
  · intro t v hv
    unfold parse_years_of_experience
    split
    · next heq =>
      rw [heq] at hv
      cases hv
    · next c cs heq =>
      rw [heq] at hv
      exact_mod_cast (foldr_max_mem_ub c cs).2 v hv
  · intro t hne
    unfold parse_years_of_experience
    split
    · next heq => exact absurd heq hne
    · next c cs heq =>
      rw [heq]
      exact ⟨(c :: cs).foldr max 0, (foldr_max_mem_ub c cs).1, rfl⟩

/-- Claim C6, witnessed: the no-match clause at a text with no duration
mention, and the maximum clause at a concrete candidate of "3 to 7 years". -/
theorem claim_C6_witness :
    parse_years_of_experience ("completely unrelated".toList) = 0 ∧
    ((7 : Nat) : ℚ) ≤ parse_years_of_experience ("3 to 7 years".toList) :=
  ⟨claim_C6_experience_max.2.2.2.1 _ (by decide),
   claim_C6_experience_max.2.2.2.2.1 _ 7 (by decide)⟩

/-- Claim C7: skill detection is case-insensitive and whole-word — "I use
python daily" detects "Python", while "pythonic" does not. -/
theorem claim_C7_case_insensitive_whole_word :
    "Python" ∈ (analyze_resume "I use python daily").skills_found ∧
    "Python" ∉ (analyze_resume "pythonic").skills_found := by
  decide

/-- Claim C8: the achievement detector sums its three family counts with no
cross-family deduplication — "increased revenue by 20%" yields one percentage
match plus one verb+number match and no currency match, total 2. -/
theorem claim_C8_achievement_double_count :
    countPct ("increased revenue by 20%".toList) = 1 ∧
    countCur ("increased revenue by 20%".toList) = 0 ∧
    countVerb ("increased revenue by 20%".toList) = 1 ∧
    detect_quantifiable_achievements ("increased revenue by 20%".toList) = 2 := by
  decide

/-- Claim C9: the score is monotone in skill coverage — between two records
agreeing on word count, achievement count and experience, where the second has
exactly one more detected skill (within the vocabulary size), the score does
not decrease. -/
theorem claim_C9_monotone_in_skills (a b : Analysis)
    (hwc : a.word_count = b.word_count)
    (hq : a.quant_achievements = b.quant_achievements)
    (he : a.experience_level = b.experience_level)
    (hlen : b.skills_found.length = a.skills_found.length + 1)
    (hcap : b.skills_found.length ≤ PREDEFINED_SKILLS.length) :
    generate_ats_score a ≤ generate_ats_score b := by
  have hraw : rawScore a ≤ rawScore b := by
    unfold rawScore
    rw [hwc, hq, he, len17]
    have hle : (a.skills_found.length : ℚ) ≤ (b.skills_found.length : ℚ) := by
      have h := hlen
      exact_mod_cast (by omega : a.skills_found.length ≤ b.skills_found.length)
    linarith
  unfold generate_ats_score
  exact pyInt_clamp_mono hraw

/-- Claim C9, witnessed: adding the single skill "Python" to the empty record
does not decrease the score. -/
theorem claim_C9_witness :
    generate_ats_score ⟨[], 0, 0, 0⟩ ≤ generate_ats_score ⟨["Python"], 0, 0, 0⟩ :=
  claim_C9_monotone_in_skills _ _ rfl rfl rfl (by decide) (by decide)

/-- Claim C10: for every record in natural ranges — detected skills a
duplicate-free subset of the 17-entry vocabulary, non-negative experience (the
count fields are naturals by type) — the unclamped weighted sum already lies
in [0, 100], so the clamp is the identity on it. -/
theorem claim_C10_sum_within_bounds (a : Analysis)
    (hsub : a.skills_found ⊆ PREDEFINED_SKILLS) (hnd : a.skills_found.Nodup)
    (hexp : 0 ≤ a.experience_level) :
    0 ≤ rawScore a ∧ rawScore a ≤ 100 ∧ max 0 (min 100 (rawScore a)) = rawScore a := by
  have hlen : a.skills_found.length ≤ 17 := skills_length_le hnd hsub
  obtain ⟨h0, h100⟩ := rawScore_bounds a hlen
  exact ⟨h0, h100, by rw [min_eq_right h100, max_eq_right h0]⟩

/-- Claim C10, witnessed at a concrete in-range record. -/
theorem claim_C10_witness :
    0 ≤ rawScore ⟨["Python", "SQL"], 3, 500, 2⟩ ∧
      rawScore ⟨["Python", "SQL"], 3, 500, 2⟩ ≤ 100 ∧
      max 0 (min 100 (rawScore ⟨["Python", "SQL"], 3, 500, 2⟩)) =
        rawScore ⟨["Python", "SQL"], 3, 500, 2⟩ :=
  claim_C10_sum_within_bounds _ (by decide) (by decide) (by norm_num)

end ResumeAnalyzer
